import Mathlib

/-!
Verification of the flowdock messages client (`flowdock/messages.go`).

The Go code is shallowly embedded: JSON documents become an inductive
`Json` type, the `Message` struct becomes a structure of `Option` fields
(mirroring Go's pointer-fields-for-optionality idiom), `json.Unmarshal`
becomes an explicit decoder returning `Except`, and a Go panic (nil
pointer dereference or `panic(err.Error())`) is modelled as the `.error`
outcome of an `Except GoPanic _`.
-/

namespace Flowdock

/-- A parsed JSON document.  Raw wire bytes that are not valid JSON have
no representative here; their only observable effect in this client is a
failed `json.Unmarshal`, which is also the effect of any shape mismatch,
so decoder failure covers both. -/
inductive Json where
  | null : Json
  | bool (b : Bool) : Json
  | num (n : Int) : Json
  | str (s : String) : Json
  | arr (elems : List Json) : Json
  | obj (fields : List (String × Json)) : Json

/-- Looks up the value of key `k` in a JSON object's field list. -/
def jLookup (fields : List (String × Json)) (k : String) : Option Json :=
  (fields.find? (fun p => p.fst == k)).map Prod.snd

/-- Message represents a Flowdock chat message (struct `Message`,
messages.go).  Every Go field is a pointer, i.e. optional; `Sent` has the
repository's millisecond-timestamp type `Time`, modelled as the integer
it unmarshals from. -/
structure Message where
  id : Option Int
  flowID : Option String
  sent : Option Int
  userID : Option String
  event : Option String
  rawContent : Option Json
  messageID : Option Int
  tags : Option (List String)
  uuid : Option String
  externalUserName : Option String
  app : Option String

/-- The zero value of `Message`: every optional field absent. -/
def emptyMessage : Message :=
  ⟨none, none, none, none, none, none, none, none, none, none, none⟩

instance : Inhabited Message := ⟨emptyMessage⟩

/-- Unmarshalling of one optional string field (`*string` in Go): absent
or JSON null leaves the pointer nil; a JSON string sets it; any other
value is an unmarshal type error. -/
def decodeStrField : Option Json → Except String (Option String)
  | none => .ok none
  | some .null => .ok none
  | some (.str s) => .ok (some s)
  | some _ => .error "json: cannot unmarshal value into string field"

/-- Unmarshalling of one optional integer field (`*int`, and the
millisecond-timestamp `*Time`, in Go). -/
def decodeIntField : Option Json → Except String (Option Int)
  | none => .ok none
  | some .null => .ok none
  | some (.num n) => .ok (some n)
  | some _ => .error "json: cannot unmarshal value into int field"

/-- Unmarshalling of the `*json.RawMessage` content field: the raw JSON
value is kept undecoded; JSON null leaves the pointer nil. -/
def decodeRawField : Option Json → Except String (Option Json)
  | none => .ok none
  | some .null => .ok none
  | some j => .ok (some j)

/-- Unmarshalling of one element of the `tags` array, which must be a
JSON string. -/
def decodeTagElem : Json → Except String String
  | .str s => .ok s
  | _ => .error "json: cannot unmarshal value into string field"

/-- Unmarshalling of the optional `*[]string` tags field. -/
def decodeTagsField : Option Json → Except String (Option (List String))
  | none => .ok none
  | some .null => .ok none
  | some (.arr elems) => do
      let ts ← elems.mapM decodeTagElem
      .ok (some ts)
  | some _ => .error "json: cannot unmarshal value into tags field"

/-- `json.Unmarshal` of one wire payload into a fresh `Message` (the
decode performed by the stream loop and by `client.Do` on response
bodies).  A JSON object populates exactly the present fields; JSON null
leaves the zero value; anything else is an unmarshal error. -/
def decodeMessage : Json → Except String Message
  | .obj fields => do
      let id ← decodeIntField (jLookup fields "id")
      let flowID ← decodeStrField (jLookup fields "flow")
      let sent ← decodeIntField (jLookup fields "sent")
      let userID ← decodeStrField (jLookup fields "user")
      let event ← decodeStrField (jLookup fields "event")
      let rawContent ← decodeRawField (jLookup fields "content")
      let messageID ← decodeIntField (jLookup fields "message")
      let tags ← decodeTagsField (jLookup fields "tags")
      let uuid ← decodeStrField (jLookup fields "uuid")
      let externalUserName ← decodeStrField (jLookup fields "external_user_name")
      let app ← decodeStrField (jLookup fields "app")
      .ok ⟨id, flowID, sent, userID, event, rawContent, messageID, tags,
           uuid, externalUserName, app⟩
  | .null => .ok emptyMessage
  | _ => .error "json: cannot unmarshal value into Go value of type flowdock.Message"

/-- Modelled from the spec: `MessageContent` (content.go, not under
src/) is plain chat text, so it unmarshals from a JSON string only. -/
structure MessageContent where
  text : String

/-- Modelled from the spec: `CommentContent` (content.go, not under
src/) is "text + reference to the message being commented on"; it
unmarshals from a JSON object. -/
structure CommentContent where
  text : Option String
  parentMessageID : Option Int

/-- Modelled from the spec: `VcsContent` (content.go, not under src/) is
"structured commit/branch metadata"; it unmarshals from a JSON object. -/
structure VcsContent where
  branch : Option String

/-- Modelled from the spec: the generic fallback JSON variant
(content.go, not under src/) keeps the raw JSON and accepts any value. -/
structure JsonContent where
  raw : Json

/-- The `Content` interface: one of the four concrete variants. -/
inductive Content where
  | message (c : MessageContent) : Content
  | comment (c : CommentContent) : Content
  | vcs (c : VcsContent) : Content
  | json (c : JsonContent) : Content

/-- Unmarshalling into a `MessageContent`. -/
def decodeMessageContent : Json → Except String MessageContent
  | .str s => .ok ⟨s⟩
  | _ => .error "json: cannot unmarshal value into MessageContent"

/-- Unmarshalling into a `CommentContent`. -/
def decodeCommentContent : Json → Except String CommentContent
  | .obj fields => do
      let text ← decodeStrField (jLookup fields "text")
      let parent ← decodeIntField (jLookup fields "message")
      .ok ⟨text, parent⟩
  | .null => .ok ⟨none, none⟩
  | _ => .error "json: cannot unmarshal value into CommentContent"

/-- Unmarshalling into a `VcsContent`. -/
def decodeVcsContent : Json → Except String VcsContent
  | .obj fields => do
      let branch ← decodeStrField (jLookup fields "branch")
      .ok ⟨branch⟩
  | .null => .ok ⟨none⟩
  | _ => .error "json: cannot unmarshal value into VcsContent"

/-- Unmarshalling into the generic `JsonContent`: never fails. -/
def decodeJsonContent (j : Json) : Except String JsonContent :=
  .ok ⟨j⟩

/-- An unrecoverable Go failure raised by `Message.Content`:
dereferencing a nil `Event`/`RawContent` pointer, or
`panic(err.Error())` on an unmarshal error. -/
inductive GoPanic where
  | nilDereference : GoPanic
  | unmarshalError (msg : String) : GoPanic
deriving DecidableEq

/-- Content of a Message (method `Message.Content`, messages.go
220-238).  The Go method switches on `*m.Event` (a nil dereference when
the event is absent), allocates the variant selected by the event-kind
tag — with the generic JSON variant as the default case — then
unmarshals `*m.RawContent` into it, panicking on unmarshal failure.
Panics are modelled as the `.error` outcome. -/
def Message.content (m : Message) : Except GoPanic Content :=
  match m.event with
  | none => .error .nilDereference
  | some ev =>
    match m.rawContent with
    | none => .error .nilDereference
    | some raw =>
      if ev = "message" then
        match decodeMessageContent raw with
        | .ok c => .ok (.message c)
        | .error e => .error (.unmarshalError e)
      else if ev = "comment" then
        match decodeCommentContent raw with
        | .ok c => .ok (.comment c)
        | .error e => .error (.unmarshalError e)
      else if ev = "vcs" then
        match decodeVcsContent raw with
        | .ok c => .ok (.vcs c)
        | .error e => .error (.unmarshalError e)
      else
        match decodeJsonContent raw with
        | .ok c => .ok (.json c)
        | .error e => .error (.unmarshalError e)

/-- One result of `es.Read()` on the event-source collaborator: a frame
whose data field is one JSON document, or a read error. -/
inductive ReadResult where
  | frame (data : Json) : ReadResult
  | readError : ReadResult

/-- Why the background stream loop is no longer sending: still blocked
in `es.Read()` awaiting input, returned after a read error, or returned
after a JSON decode error. -/
inductive LoopExit where
  | blockedOnRead : LoopExit
  | readErr : LoopExit
  | decodeErr : LoopExit
deriving DecidableEq

/-- Observable outcome of the background goroutine spawned by
`MessagesService.Stream` (messages.go 48-66): the messages sent on
`messageCh` in order, how the loop stopped, whether the deferred
`es.Close()` ran (it runs exactly when the goroutine returns), and
whether `messageCh` was closed (the code never closes it). -/
structure LoopResult where
  sent : List Message
  exitKind : LoopExit
  esClosed : Bool
  chClosed : Bool

/-- The background stream loop (messages.go 50-65) applied to the finite
sequence of read results the event source will yield.  Each iteration
reads; a read error logs and returns; otherwise the frame data is
unmarshalled into a `Message`, an unmarshal error logs and returns, and
a decoded message is sent on the channel.  If the sequence is exhausted
without an error the goroutine is still blocked in `es.Read()`. -/
def streamLoop : List ReadResult → LoopResult
  | [] => ⟨[], .blockedOnRead, false, false⟩
  | .readError :: _ => ⟨[], .readErr, true, false⟩
  | .frame d :: rest =>
    match decodeMessage d with
    | .error _ => ⟨[], .decodeErr, true, false⟩
    | .ok m =>
      let r := streamLoop rest
      ⟨m :: r.sent, r.exitKind, r.esClosed, r.chClosed⟩

/-- Pointwise decoding of a list of frame payloads: `some` exactly when
every payload unmarshals into a `Message`. -/
def decodeAll : List Json → Option (List Message)
  | [] => some []
  | j :: rest =>
    match decodeMessage j, decodeAll rest with
    | .ok m, some ms => some (m :: ms)
    | _, _ => none

/-! ### Interleaving model of cancellation

The goroutine's loop body has two atomic interaction points: the
blocking `es.Read()` and the blocking channel send `messageCh <- *m`.
The caller may close the stream handle (`es.Close()`) between any two of
them; per the collaborator's contract, a read on a closed event source
returns an error, which makes the loop return.  A message whose frame
was read before the close is still held by the goroutine and its send
still happens. -/

/-- Where the background goroutine is in its loop body: about to call
`es.Read()`, holding a decoded message it is about to send, or
returned. -/
inductive TaskPhase where
  | toRead : TaskPhase
  | toSend (m : Message) : TaskPhase
  | done : TaskPhase
deriving Inhabited

/-- State of one stream subscription: the goroutine's phase, the frames
the event source has not yet delivered, whether the caller has closed
the handle, and the messages sent on the channel before and after that
closure. -/
structure StreamState where
  phase : TaskPhase
  pending : List Json
  closed : Bool
  sentBefore : List Message
  sentAfter : List Message

/-- One atomic step of the background goroutine.  Reading on a closed
event source yields an error, so the loop returns; reading a frame
decodes it (a decode failure also returns); a held message is sent
whether or not the handle was closed in the meantime, because the
channel itself is never closed. -/
def stepTask (s : StreamState) : StreamState :=
  match s.phase with
  | .done => s
  | .toSend m =>
    if s.closed then
      { s with phase := .toRead, sentAfter := s.sentAfter ++ [m] }
    else
      { s with phase := .toRead, sentBefore := s.sentBefore ++ [m] }
  | .toRead =>
    if s.closed then
      { s with phase := .done }
    else
      match s.pending with
      | [] => s
      | j :: rest =>
        match decodeMessage j with
        | .ok m => { s with phase := .toSend m, pending := rest }
        | .error _ => { s with phase := .done, pending := rest }

/-- Runs `n` atomic goroutine steps. -/
def runSteps : Nat → StreamState → StreamState
  | 0, s => s
  | n + 1, s => runSteps n (stepTask s)

/-- The state of a fresh subscription whose event source will deliver
`frames`. -/
def initState (frames : List Json) : StreamState :=
  ⟨.toRead, frames, false, [], []⟩

/-- Execution in which the goroutine performs `k` steps, then the caller
closes the stream handle, then the goroutine performs `n` more steps. -/
def cancelAt (frames : List Json) (k n : Nat) : StreamState :=
  runSteps n { runSteps k (initState frames) with closed := true }

/-! ### Request builders -/

/-- Whether a URL string contains an ASCII control character, the way a
caller-supplied path segment spliced raw into the URL makes `url.Parse`
(hence request construction) fail. -/
def hasControlChar (s : String) : Bool :=
  s.data.any (fun c => c.toNat < 32)

/-- An HTTP request as handed to the transport: a method, the path
built by the operation, and the query parameters merged from an options
bundle.  Query parameter values are kept decoded; the collaborator
percent-escapes them on the wire, so only the raw-spliced path can make
the URL malformed. -/
structure Request where
  method : String
  path : String
  query : List (String × String)

/-- Modelled from the spec: `client.NewRequest` (flowdock.go, not under
src/) builds a request, failing fast — before any I/O — iff the URL is
malformed ("malformed locators fail fast with a construction error
before any network activity"). -/
def newRequest (method path : String) (query : List (String × String)) :
    Except String Request :=
  if hasControlChar path then
    .error ("parse " ++ path ++ ": net/url: invalid control character in URL")
  else
    .ok ⟨method, path, query⟩

/-- Errors a REST operation can return: a construction error (returned
before any I/O), an API-level error carrying the non-2xx status and
body, or a response-body decode error. -/
inductive RestError where
  | construction (e : String) : RestError
  | api (status : Nat) (body : Json) : RestError
  | decode (e : String) : RestError

/-- Result of a REST operation together with the number of HTTP calls
it performed. -/
structure RestOutcome where
  result : Except RestError Message
  httpCalls : Nat

/-- Modelled from the spec: `client.Do` (flowdock.go, not under src/)
performs one HTTP round trip; a non-2xx response is surfaced as an API
error with status and body, and a 2xx body is unmarshalled into the
target `Message` shape. -/
def clientDo (status : Nat) (body : Json) : Except RestError Message :=
  if 200 ≤ status ∧ status < 300 then
    match decodeMessage body with
    | .ok m => .ok m
    | .error e => .error (.decode e)
  else
    .error (.api status body)

/-- MessagesCreateOptions (messages.go 147-158), with Go zero values as
defaults. -/
structure MessagesCreateOptions where
  flowID : String := ""
  messageID : Int := 0
  event : String := ""
  content : String := ""
  tags : List String := []
  uuid : String := ""
  externalUserName : String := ""
  subject : String := ""
  fromAddress : String := ""
  source : String := ""

/-- Query encoding of `MessagesCreateOptions` per its url struct tags
(messages.go 147-158): fields in declaration order, each omitted at its
zero value (omitempty), tags comma-joined. -/
def MessagesCreateOptions.queryPairs (o : MessagesCreateOptions) :
    List (String × String) :=
  (if o.flowID = "" then [] else [("flow", o.flowID)]) ++
  (if o.messageID = 0 then [] else [("message", toString o.messageID)]) ++
  (if o.event = "" then [] else [("event", o.event)]) ++
  (if o.content = "" then [] else [("content", o.content)]) ++
  (if o.tags = [] then [] else [("tags", String.intercalate "," o.tags)]) ++
  (if o.uuid = "" then [] else [("uuid", o.uuid)]) ++
  (if o.externalUserName = "" then [] else
    [("external_user_name", o.externalUserName)]) ++
  (if o.subject = "" then [] else [("subject", o.subject)]) ++
  (if o.fromAddress = "" then [] else [("from_address", o.fromAddress)]) ++
  (if o.source = "" then [] else [("source", o.source)])

/-- MessagesListOptions (messages.go 21-29), with Go zero values as
defaults. -/
structure MessagesListOptions where
  event : String := ""
  limit : Int := 0
  sinceID : Int := 0
  untilID : Int := 0
  tags : List String := []
  tagMode : String := ""
  search : String := ""

/-- Query encoding of `MessagesListOptions` per its url struct tags
(messages.go 21-29): fields in declaration order, each omitted at its
zero value (omitempty), tags comma-joined. -/
def MessagesListOptions.queryPairs (o : MessagesListOptions) :
    List (String × String) :=
  (if o.event = "" then [] else [("event", o.event)]) ++
  (if o.limit = 0 then [] else [("limit", toString o.limit)]) ++
  (if o.sinceID = 0 then [] else [("since_id", toString o.sinceID)]) ++
  (if o.untilID = 0 then [] else [("until_id", toString o.untilID)]) ++
  (if o.tags = [] then [] else [("tags", String.intercalate "," o.tags)]) ++
  (if o.tagMode = "" then [] else [("tag_mode", o.tagMode)]) ++
  (if o.search = "" then [] else [("search", o.search)])

namespace MessagesService

/-- Path built by `MessagesService.List` (messages.go 75). -/
def listPath (org flow : String) : String :=
  "flows/" ++ org ++ "/" ++ flow ++ "/messages"

/-- The request `MessagesService.List` (messages.go 74-85) hands to the
transport: the list path with the encoded options merged in. -/
def listRequest (org flow : String) (opt : MessagesListOptions) :
    Except String Request :=
  newRequest "GET" (listPath org flow) opt.queryPairs

/-- Path built by `MessagesService.Get` (messages.go 100): no leading
slash. -/
def getPath (org flowName : String) (id : Int) : String :=
  "flows/" ++ org ++ "/" ++ flowName ++ "/messages/" ++ toString id

/-- Path built by `MessagesService.Edit` (messages.go 122): note the
leading slash. -/
def editPath (org flowName : String) (id : Int) : String :=
  "/flows/" ++ org ++ "/" ++ flowName ++ "/messages/" ++ toString id

/-- Path built by `MessagesService.Delete` (messages.go 137): note the
leading slash. -/
def deletePath (org flowName : String) (id : Int) : String :=
  "/flows/" ++ org ++ "/" ++ flowName ++ "/messages/" ++ toString id

/-- The construction stage of `MessagesService.Create` (messages.go
184-191).  Source fidelity note: line 187 discards the error returned
by `addOptions` (the `err` is overwritten by the `NewRequest` call on
line 188 before being checked), so only the `NewRequest` error can be
returned; `addOptions` on the fixed well-formed path "messages" with a
bundle of string/int/[]string fields cannot fail anyway. -/
def createRequest (opt : MessagesCreateOptions) : Except String Request :=
  newRequest "POST" "messages" opt.queryPairs

/-- `MessagesService.Create` (messages.go 184-200): build the request
(a construction failure is returned before any I/O), perform one HTTP
call, and unmarshal the 2xx response body into a `Message`. -/
def create (opt : MessagesCreateOptions) (status : Nat) (body : Json) :
    RestOutcome :=
  match createRequest opt with
  | .error e => ⟨.error (.construction e), 0⟩
  | .ok _ => ⟨clientDo status body, 1⟩

/-- The construction stage of `MessagesService.CreateComment`
(messages.go 163-170); the same dropped-`addOptions`-error note as for
`createRequest` applies (line 166-167). -/
def createCommentRequest (opt : MessagesCreateOptions) : Except String Request :=
  newRequest "POST" "comments" opt.queryPairs

/-- `MessagesService.CreateComment` (messages.go 163-179). -/
def createComment (opt : MessagesCreateOptions) (status : Nat) (body : Json) :
    RestOutcome :=
  match createCommentRequest opt with
  | .error e => ⟨.error (.construction e), 0⟩
  | .ok _ => ⟨clientDo status body, 1⟩

/-! ### Stream construction -/

/-- The fixed reconnect interval `retryDuration := 3 * time.Second`
(messages.go 36), in seconds. -/
def retrySeconds : Nat := 3

/-- The URL `MessagesService.Stream` builds (messages.go 38): org, flow
and token spliced raw into the string. -/
def streamURL (token org flow : String) : String :=
  "flows/" ++ org ++ "/" ++ flow ++ "?access_token=" ++ token

/-- A streaming request: the method and the flat URL string handed to
`client.NewStreamRequest`. -/
structure StreamRequest where
  method : String
  rawURL : String

/-- Modelled from the spec: `client.NewStreamRequest` (flowdock.go, not
under src/) builds the streaming request against the streaming host,
failing fast iff the URL is malformed. -/
def newStreamRequest (method url : String) : Except String StreamRequest :=
  if hasControlChar url then
    .error ("parse " ++ url ++ ": net/url: invalid control character in URL")
  else
    .ok ⟨method, url⟩

/-- The event-source collaborator handle `eventsource.New(req,
retryDuration)` (messages.go 46): it owns the request and the fixed
reconnect interval. -/
structure EventSource where
  req : StreamRequest
  retrySec : Nat

/-- Result of `MessagesService.Stream` (messages.go 35-68) together
with the number of outbound connections the call set up and the number
of retries the operation itself performed (reconnection is delegated to
the event-source collaborator, never to this operation). -/
structure StreamOutcome where
  result : Except String EventSource
  connectionsOpened : Nat
  opRetries : Nat

/-- `MessagesService.Stream` (messages.go 35-68), up to spawning the
goroutine: a request-construction error is returned synchronously,
before the channel, the event source, or any connection exists;
otherwise exactly one event source (one outbound connection) is set up
with the fixed 3-second retry interval. -/
def stream (token org flow : String) : StreamOutcome :=
  match newStreamRequest "GET" (streamURL token org flow) with
  | .error e => ⟨.error e, 0, 0⟩
  | .ok req => ⟨.ok ⟨req, retrySeconds⟩, 1, 0⟩

end MessagesService

/-! ## Theorems -/

/-- C1 (amended): `Content()` dispatches on the event-kind tag — event
"message" yields a `MessageContent`, "comment" a `CommentContent`,
"vcs" a `VcsContent`, and any other *present* event value the generic
JSON variant, each populated by decoding the raw content; but a
*missing* event value does not yield the generic JSON variant: the
method dereferences the nil event pointer and panics (as it does for a
missing raw content). -/
theorem c1_content_dispatch (m : Message) :
    (m.event = none → m.content = .error .nilDereference) ∧
    (∀ e raw, m.event = some e → m.rawContent = some raw →
      (∀ c, e = "message" → decodeMessageContent raw = .ok c →
        m.content = .ok (.message c)) ∧
      (∀ c, e = "comment" → decodeCommentContent raw = .ok c →
        m.content = .ok (.comment c)) ∧
      (∀ c, e = "vcs" → decodeVcsContent raw = .ok c →
        m.content = .ok (.vcs c)) ∧
      (e ≠ "message" → e ≠ "comment" → e ≠ "vcs" →
        m.content = .ok (.json ⟨raw⟩))) := by
  constructor
  · intro h
    simp [Message.content, h]
  · intro e raw he hr
    refine ⟨?_, ?_, ?_, ?_⟩
    · rintro c rfl hc
      simp [Message.content, he, hr, hc]
    · rintro c rfl hc
      simp [Message.content, he, hr, hc]
    · rintro c rfl hc
      simp [Message.content, he, hr, hc]
    · intro h1 h2 h3
      simp [Message.content, he, hr, h1, h2, h3, decodeJsonContent]

/-- C1 witness: on a message with event "comment" and an object
content, `Content()` returns the populated `CommentContent`. -/
theorem c1_content_dispatch_witness :
    ({ emptyMessage with
        event := some "comment",
        rawContent := some (Json.obj
          [("text", Json.str "hi"), ("message", Json.num 2)]) } : Message).content
      = .ok (.comment ⟨some "hi", some 2⟩) := by
  have h := (c1_content_dispatch
    { emptyMessage with
        event := some "comment",
        rawContent := some (Json.obj
          [("text", Json.str "hi"), ("message", Json.num 2)]) }).2 "comment"
    (Json.obj [("text", Json.str "hi"), ("message", Json.num 2)]) rfl rfl
  exact h.2.1 ⟨some "hi", some 2⟩ rfl rfl

/-- C1 counterexample: a message with no event value and a perfectly
valid JSON object as content does not resolve to the generic JSON
variant — `Content()` panics on the nil event dereference. -/
theorem c1_missing_event_counterexample :
    ({ emptyMessage with rawContent := some (Json.obj []) } : Message).content
        = .error GoPanic.nilDereference ∧
    ({ emptyMessage with rawContent := some (Json.obj []) } : Message).content
        ≠ .ok (.json ⟨Json.obj []⟩) := by
  refine ⟨rfl, ?_⟩
  intro h
  exact Except.noConfusion h

/-- C4: when decoding the raw content into the selected variant fails,
`Content()` never produces a silently empty or default-valued variant —
the failure is surfaced unrecoverably (lines 233-235 panic with the
unmarshal error's message, modelled as the `.error` outcome), so no
`.ok` value reaches the caller. -/
theorem c4_decode_failure_surfaces (m : Message) (e : String) (raw : Json)
    (msg : String) (he : m.event = some e) (hr : m.rawContent = some raw)
    (hfail : (e = "message" ∧ decodeMessageContent raw = .error msg) ∨
             (e = "comment" ∧ decodeCommentContent raw = .error msg) ∨
             (e = "vcs" ∧ decodeVcsContent raw = .error msg)) :
    m.content = .error (.unmarshalError msg) ∧
    ∀ c : Content, m.content ≠ .ok c := by
  have hm : m.content = .error (.unmarshalError msg) := by
    rcases hfail with ⟨rfl, hd⟩ | ⟨rfl, hd⟩ | ⟨rfl, hd⟩ <;>
      simp [Message.content, he, hr, hd]
  refine ⟨hm, fun c h => ?_⟩
  rw [hm] at h
  exact Except.noConfusion h

/-- C4 witness: event "message" with a numeric content payload fails to
decode and the failure is surfaced, not swallowed. -/
theorem c4_decode_failure_surfaces_witness :
    ({ emptyMessage with
        event := some "message", rawContent := some (Json.num 3) } : Message).content
      = .error (.unmarshalError "json: cannot unmarshal value into MessageContent") :=
  (c4_decode_failure_surfaces _ "message" (Json.num 3) _ rfl rfl
    (Or.inl ⟨rfl, rfl⟩)).1

/-- C2: when the event source yields N frames that all decode, the
background loop sends exactly the N decoded messages on the output
channel, in frame order — none dropped, duplicated, or reordered. -/
theorem c2_stream_delivery_in_order (frames : List Json) (msgs : List Message)
    (h : decodeAll frames = some msgs) :
    (streamLoop (frames.map ReadResult.frame)).sent = msgs ∧
    msgs.length = frames.length := by
  induction frames generalizing msgs with
  | nil =>
    simp only [decodeAll] at h
    obtain rfl : ([] : List Message) = msgs := Option.some.inj h
    simp [streamLoop]
  | cons j rest ih =>
    simp only [decodeAll] at h
    cases hd : decodeMessage j with
    | error e =>
      rw [hd] at h
      exact absurd h (by simp)
    | ok m =>
      rw [hd] at h
      cases hr : decodeAll rest with
      | none =>
        rw [hr] at h
        exact absurd h (by simp)
      | some ms =>
        rw [hr] at h
        obtain rfl : m :: ms = msgs := Option.some.inj h
        obtain ⟨ih1, ih2⟩ := ih ms hr
        simp [streamLoop, hd, ih1, ih2]

/-- C2 witness: two decodable frames yield exactly those two messages
in order. -/
theorem c2_stream_delivery_in_order_witness :
    (streamLoop (([Json.obj [("event", Json.str "message")],
                   Json.obj []]).map ReadResult.frame)).sent
        = [{ emptyMessage with event := some "message" }, emptyMessage] ∧
    ([{ emptyMessage with event := some "message" }, emptyMessage] :
        List Message).length
        = ([Json.obj [("event", Json.str "message")], Json.obj []] :
            List Json).length :=
  c2_stream_delivery_in_order
    [Json.obj [("event", Json.str "message")], Json.obj []]
    [{ emptyMessage with event := some "message" }, emptyMessage] rfl

/-- C3: when the event source yields K decodable frames and then a read
error, the loop sends exactly the K decoded messages, then terminates
with the read error (running the deferred `es.Close()`), performing no
further sends and never closing the output channel. -/
theorem c3_read_error_terminates (frames : List Json) (msgs : List Message)
    (h : decodeAll frames = some msgs) :
    streamLoop (frames.map ReadResult.frame ++ [ReadResult.readError]) =
      ⟨msgs, .readErr, true, false⟩ ∧
    msgs.length = frames.length := by
  induction frames generalizing msgs with
  | nil =>
    simp only [decodeAll] at h
    obtain rfl : ([] : List Message) = msgs := Option.some.inj h
    simp [streamLoop]
  | cons j rest ih =>
    simp only [decodeAll] at h
    cases hd : decodeMessage j with
    | error e =>
      rw [hd] at h
      exact absurd h (by simp)
    | ok m =>
      rw [hd] at h
      cases hr : decodeAll rest with
      | none =>
        rw [hr] at h
        exact absurd h (by simp)
      | some ms =>
        rw [hr] at h
        obtain rfl : m :: ms = msgs := Option.some.inj h
        obtain ⟨ih1, ih2⟩ := ih ms hr
        simp [streamLoop, hd, ih1, ih2]

/-- C3 witness: one decodable frame followed by a read error delivers
exactly one message and terminates without closing the channel. -/
theorem c3_read_error_terminates_witness :
    streamLoop ([Json.obj [("id", Json.num 4)]].map ReadResult.frame ++
        [ReadResult.readError]) =
      ⟨[{ emptyMessage with id := some 4 }], .readErr, true, false⟩ ∧
    ([{ emptyMessage with id := some 4 }] : List Message).length
      = ([Json.obj [("id", Json.num 4)]] : List Json).length :=
  c3_read_error_terminates [Json.obj [("id", Json.num 4)]]
    [{ emptyMessage with id := some 4 }] rfl

/-- A goroutine step never changes whether the caller has closed the
handle. -/
theorem stepTask_closed (s : StreamState) : (stepTask s).closed = s.closed := by
  rcases s with ⟨phase, pending, closed, sb, sa⟩
  cases phase with
  | done => rfl
  | toSend m => cases closed <;> rfl
  | toRead =>
    cases closed with
    | true => rfl
    | false =>
      cases pending with
      | nil => rfl
      | cons j rest => cases hm : decodeMessage j <;> simp [stepTask, hm]

/-- Running steps never changes whether the caller has closed the
handle. -/
theorem runSteps_closed (n : Nat) (s : StreamState) :
    (runSteps n s).closed = s.closed := by
  induction n generalizing s with
  | zero => rfl
  | succ k ih => rw [runSteps, ih, stepTask_closed]

/-- While the handle is still open, no step records a post-closure
send. -/
theorem stepTask_sentAfter_open (s : StreamState) (h : s.closed = false) :
    (stepTask s).sentAfter = s.sentAfter := by
  rcases s with ⟨phase, pending, closed, sb, sa⟩
  subst h
  cases phase with
  | done => rfl
  | toSend m => rfl
  | toRead =>
    cases pending with
    | nil => rfl
    | cons j rest => cases hm : decodeMessage j <;> simp [stepTask, hm]

/-- While the handle is still open, no run of steps records a
post-closure send. -/
theorem runSteps_sentAfter_open (n : Nat) (s : StreamState)
    (h : s.closed = false) :
    (runSteps n s).sentAfter = s.sentAfter := by
  induction n generalizing s with
  | zero => rfl
  | succ k ih =>
    rw [runSteps, ih (stepTask s) ((stepTask_closed s).trans h),
      stepTask_sentAfter_open s h]

/-- The number of sends a goroutine in the given phase can still perform
after the handle is closed: one if it already holds a decoded message,
none otherwise. -/
def phaseDebt : TaskPhase → Nat
  | .toSend _ => 1
  | _ => 0

/-- Once the handle is closed, a step can move at most the held message
into the post-closure sends. -/
theorem stepTask_debt (s : StreamState) (h : s.closed = true) :
    (stepTask s).sentAfter.length + phaseDebt (stepTask s).phase ≤
      s.sentAfter.length + phaseDebt s.phase := by
  rcases s with ⟨phase, pending, closed, sb, sa⟩
  subst h
  cases phase with
  | done => exact le_refl _
  | toSend m => simp [stepTask, phaseDebt]
  | toRead => simp [stepTask, phaseDebt]

/-- Once the handle is closed, the post-closure sends never exceed the
current ones plus the single held message. -/
theorem runSteps_debt (n : Nat) (s : StreamState) (h : s.closed = true) :
    (runSteps n s).sentAfter.length ≤
      s.sentAfter.length + phaseDebt s.phase := by
  induction n generalizing s with
  | zero => exact Nat.le_add_right _ _
  | succ k ih =>
    calc (runSteps k (stepTask s)).sentAfter.length
        ≤ (stepTask s).sentAfter.length + phaseDebt (stepTask s).phase :=
          ih (stepTask s) ((stepTask_closed s).trans h)
      _ ≤ s.sentAfter.length + phaseDebt s.phase := stepTask_debt s h

/-- With the handle closed, two goroutine steps suffice to reach the
returned state. -/
theorem runSteps_two_done (s : StreamState) (h : s.closed = true) :
    (runSteps 2 s).phase = .done := by
  rcases s with ⟨phase, pending, closed, sb, sa⟩
  subst h
  cases phase <;> rfl

/-- A returned goroutine stays returned and does nothing more. -/
theorem runSteps_done (n : Nat) (s : StreamState) (h : s.phase = .done) :
    runSteps n s = s := by
  induction n generalizing s with
  | zero => rfl
  | succ k ih =>
    have hs : stepTask s = s := by
      rcases s with ⟨phase, pending, closed, sb, sa⟩
      cases h
      rfl
    rw [runSteps, hs, ih s h]

/-- Running `a + b` steps runs `a` steps and then `b` steps. -/
theorem runSteps_add (a b : Nat) (s : StreamState) :
    runSteps (a + b) s = runSteps b (runSteps a s) := by
  induction a generalizing s with
  | zero => rw [Nat.zero_add]; rfl
  | succ k ih =>
    have hn : k + 1 + b = (k + b) + 1 := by omega
    rw [hn, runSteps, ih (stepTask s)]
    rfl

/-- C5 (amended): after the caller closes the stream handle, at most
one further send — of the single message whose frame had already been
read before closure — can occur on the output channel; the handle stays
closed, and within two further atomic steps the background task has
terminated (its next read fails), after which nothing more happens. -/
theorem c5_cancellation (frames : List Json) (k n : Nat) :
    (cancelAt frames k n).sentAfter.length ≤ 1 ∧
    (cancelAt frames k n).closed = true ∧
    (2 ≤ n → (cancelAt frames k n).phase = .done) := by
  have h0 : (runSteps k (initState frames)).closed = false :=
    (runSteps_closed k (initState frames)).trans rfl
  have hA : (runSteps k (initState frames)).sentAfter = [] :=
    (runSteps_sentAfter_open k (initState frames) rfl).trans rfl
  refine ⟨?_, ?_, ?_⟩
  · have hb := runSteps_debt n { runSteps k (initState frames) with closed := true } rfl
    have : ({ runSteps k (initState frames) with closed := true } :
        StreamState).sentAfter.length = 0 := by
      simp [hA]
    rw [this] at hb
    refine le_trans hb ?_
    cases hp : ({ runSteps k (initState frames) with closed := true } :
        StreamState).phase <;> simp [phaseDebt]
  · exact (runSteps_closed n _).trans rfl
  · intro hn
    have hsplit : n = 2 + (n - 2) := by omega
    unfold cancelAt
    rw [hsplit, runSteps_add, runSteps_done (n - 2) _
      (runSteps_two_done _ rfl)]
    exact runSteps_two_done _ rfl

/-- C5 witness: closing the handle right after a frame was read leaves
at most one post-closure send, a closed handle, and a terminated
task. -/
theorem c5_cancellation_witness :
    (cancelAt [Json.obj []] 1 2).sentAfter.length ≤ 1 ∧
    (cancelAt [Json.obj []] 1 2).closed = true ∧
    (cancelAt [Json.obj []] 1 2).phase = .done :=
  ⟨(c5_cancellation [Json.obj []] 1 2).1,
   (c5_cancellation [Json.obj []] 1 2).2.1,
   (c5_cancellation [Json.obj []] 1 2).2.2 (by decide)⟩

/-- C5 counterexample: with one decodable frame, closing the handle
between the goroutine's read and its send (after step 1) does not
prevent the send — the already-read message is still written to the
output channel after the handle's closure. -/
theorem c5_send_after_close_counterexample :
    (cancelAt [Json.obj []] 1 2).sentAfter = [emptyMessage] ∧
    (cancelAt [Json.obj []] 1 2).sentAfter ≠ [] := by
  refine ⟨rfl, ?_⟩
  intro h
  rw [show (cancelAt [Json.obj []] 1 2).sentAfter = [emptyMessage] from rfl] at h
  exact List.noConfusion h

/-- C6: construction errors are returned synchronously before any I/O
and never retried.  A malformed streaming locator makes `Stream` return
the construction error with zero connections opened and zero retries;
`Create` and `CreateComment` build their requests on the fixed
well-formed paths "messages"/"comments" with always-encodable options,
so their construction never fails (even though line 187/166 discards
the `addOptions` error), and each performs at most one HTTP call. -/
theorem c6_construction_fail_fast (token org flow : String)
    (opt copt : MessagesCreateOptions) (st1 st2 : Nat) (b1 b2 : Json)
    (h : hasControlChar (MessagesService.streamURL token org flow) = true) :
    MessagesService.stream token org flow =
      ⟨.error ("parse " ++ MessagesService.streamURL token org flow ++
        ": net/url: invalid control character in URL"), 0, 0⟩ ∧
    MessagesService.createRequest opt =
      .ok ⟨"POST", "messages", opt.queryPairs⟩ ∧
    MessagesService.createCommentRequest copt =
      .ok ⟨"POST", "comments", copt.queryPairs⟩ ∧
    (MessagesService.create opt st1 b1).httpCalls ≤ 1 ∧
    (MessagesService.createComment copt st2 b2).httpCalls ≤ 1 := by
  refine ⟨?_, ?_, ?_, ?_, ?_⟩
  · simp [MessagesService.stream, MessagesService.newStreamRequest, h]
  · simp [MessagesService.createRequest, newRequest,
      show hasControlChar "messages" = false from rfl]
  · simp [MessagesService.createCommentRequest, newRequest,
      show hasControlChar "comments" = false from rfl]
  · unfold MessagesService.create
    cases MessagesService.createRequest opt <;> simp
  · unfold MessagesService.createComment
    cases MessagesService.createCommentRequest copt <;> simp

/-- C6 witness: an org segment carrying a newline makes the streaming
URL malformed, and `Stream` returns the construction error with zero
connections and zero retries. -/
theorem c6_construction_fail_fast_witness :
    MessagesService.stream "tok" "a\nb" "f" =
      ⟨.error ("parse " ++ MessagesService.streamURL "tok" "a\nb" "f" ++
        ": net/url: invalid control character in URL"), 0, 0⟩ :=
  (c6_construction_fail_fast "tok" "a\nb" "f" {} {} 200 200 Json.null Json.null
    rfl).1

/-- C7: listing with since_id 5, until_id 10, limit 3, tags ["a","b"],
tag_mode "and" and every other option at its zero value produces a GET
request whose query parameters are exactly limit=3, since_id=5,
until_id=10, tags=a,b (comma-joined), tag_mode=and — each claimed pair
present — and contain no key for a zero-valued option, in particular no
event and no search key. -/
theorem c7_list_query_encoding :
    MessagesService.listRequest "orgX" "flowY"
        { sinceID := 5, untilID := 10, limit := 3,
          tags := ["a", "b"], tagMode := "and" } =
      .ok ⟨"GET", "flows/orgX/flowY/messages",
        [("limit", "3"), ("since_id", "5"), ("until_id", "10"),
         ("tags", "a,b"), ("tag_mode", "and")]⟩ ∧
    (("since_id", "5") ∈ MessagesListOptions.queryPairs
        { sinceID := 5, untilID := 10, limit := 3,
          tags := ["a", "b"], tagMode := "and" } ∧
     ("until_id", "10") ∈ MessagesListOptions.queryPairs
        { sinceID := 5, untilID := 10, limit := 3,
          tags := ["a", "b"], tagMode := "and" } ∧
     ("limit", "3") ∈ MessagesListOptions.queryPairs
        { sinceID := 5, untilID := 10, limit := 3,
          tags := ["a", "b"], tagMode := "and" } ∧
     ("tags", "a,b") ∈ MessagesListOptions.queryPairs
        { sinceID := 5, untilID := 10, limit := 3,
          tags := ["a", "b"], tagMode := "and" } ∧
     ("tag_mode", "and") ∈ MessagesListOptions.queryPairs
        { sinceID := 5, untilID := 10, limit := 3,
          tags := ["a", "b"], tagMode := "and" }) ∧
    (MessagesListOptions.queryPairs
        { sinceID := 5, untilID := 10, limit := 3,
          tags := ["a", "b"], tagMode := "and" }).all
      (fun p => p.fst != "event" && p.fst != "search") = true := by
  refine ⟨rfl, ⟨?_, ?_, ?_, ?_, ?_⟩, rfl⟩ <;> decide

/-- C8: a Create whose options set only the content and the subject
issues a POST to "messages" carrying exactly those two keys with those
values, and any 2xx response whose body is the empty JSON object
decodes to the zero-valued Message (every optional field absent) with
no error, in one HTTP call. -/
theorem c8_create_two_fields (status : Nat)
    (h1 : 200 ≤ status) (h2 : status < 300) :
    MessagesService.createRequest
        { content := "Howdy-Doo @Jackie #awesome", subject := "a subject" } =
      .ok ⟨"POST", "messages",
        [("content", "Howdy-Doo @Jackie #awesome"), ("subject", "a subject")]⟩ ∧
    MessagesService.create
        { content := "Howdy-Doo @Jackie #awesome", subject := "a subject" }
        status (Json.obj []) =
      ⟨.ok emptyMessage, 1⟩ := by
  refine ⟨rfl, ?_⟩
  show (⟨clientDo status (Json.obj []), 1⟩ : RestOutcome) = _
  have hc : clientDo status (Json.obj []) = .ok emptyMessage := by
    unfold clientDo
    rw [if_pos ⟨h1, h2⟩]
    rfl
  rw [hc]

/-- C8 witness: the round trip at status 200. -/
theorem c8_create_two_fields_witness :
    MessagesService.create
        { content := "Howdy-Doo @Jackie #awesome", subject := "a subject" }
        200 (Json.obj []) =
      ⟨.ok emptyMessage, 1⟩ :=
  (c8_create_two_fields 200 (by decide) (by decide)).2

/-- C9: `Stream` builds the GET request on the path
flows/org/flow?access_token=token and hands the event-source
collaborator a fixed retry interval of exactly 3 seconds; on a
well-formed locator it opens exactly one connection and performs no
retries of its own. -/
theorem c9_stream_request_shape (token org flow : String)
    (h : hasControlChar (MessagesService.streamURL token org flow) = false) :
    MessagesService.streamURL token org flow =
      "flows/" ++ org ++ "/" ++ flow ++ "?access_token=" ++ token ∧
    MessagesService.stream token org flow =
      ⟨.ok ⟨⟨"GET", MessagesService.streamURL token org flow⟩,
        MessagesService.retrySeconds⟩, 1, 0⟩ ∧
    MessagesService.retrySeconds = 3 := by
  refine ⟨rfl, ?_, rfl⟩
  simp [MessagesService.stream, MessagesService.newStreamRequest, h]

/-- C9 witness: the request shape at concrete inputs. -/
theorem c9_stream_request_shape_witness :
    MessagesService.stream "tok" "org" "flow" =
      ⟨.ok ⟨⟨"GET", "flows/org/flow?access_token=tok"⟩, 3⟩, 1, 0⟩ :=
  (c9_stream_request_shape "tok" "org" "flow" rfl).2.1

/-- Two strings whose character data start with distinct characters are
distinct. -/
theorem string_ne_of_head {s t : String} {a b : Char} {l1 l2 : List Char}
    (hs : s.data = a :: l1) (ht : t.data = b :: l2) (hab : a ≠ b) : s ≠ t := by
  intro h
  rw [h, ht] at hs
  injection hs with h1 _
  exact hab h1.symm

/-- C10: `Edit` and `Delete` build /flows/org/flow/messages/id with a
leading slash while `Get` builds it without one, so for the same inputs
the path passed to request construction by Edit or Delete is never the
path passed by Get. -/
theorem c10_leading_slash (org flowName : String) (id : Int) :
    MessagesService.editPath org flowName id =
      "/flows/" ++ org ++ "/" ++ flowName ++ "/messages/" ++ toString id ∧
    MessagesService.deletePath org flowName id =
      MessagesService.editPath org flowName id ∧
    MessagesService.getPath org flowName id =
      "flows/" ++ org ++ "/" ++ flowName ++ "/messages/" ++ toString id ∧
    MessagesService.editPath org flowName id ≠
      MessagesService.getPath org flowName id ∧
    MessagesService.deletePath org flowName id ≠
      MessagesService.getPath org flowName id := by
  have hedit : ∃ l, (MessagesService.editPath org flowName id).data = '/' :: l :=
    ⟨_, rfl⟩
  have hget : ∃ l, (MessagesService.getPath org flowName id).data = 'f' :: l :=
    ⟨_, rfl⟩
  obtain ⟨l1, h1⟩ := hedit
  obtain ⟨l2, h2⟩ := hget
  refine ⟨rfl, rfl, rfl, ?_, ?_⟩ <;>
    exact string_ne_of_head h1 h2 (by decide)

end Flowdock
